import Mathlib

/-!
Verification of the seller-sp-api client library: a shallow embedding of its
parameter validator (Joi schema in `validators`), query serializer, error
normalizer and client facade, with theorems settling the specification
claims about them.
-/

namespace SellerSpApi

/-! ## Data model: `SearchListingsItemsQueryParams` (types module)

Optional fields of the TypeScript interface become `Option`; arrays become
`List`; the enum-literal union types are carried as `String` (the validator
constrains their values exactly as the Joi schema does). `pageSize` is an
`Int`: the schema requires `Joi.number().integer()`. -/

structure SearchListingsItemsQueryParams where
  sellerId : String
  marketplaceIds : List String
  issueLocale : Option String := none
  includedData : Option (List String) := none
  identifiers : Option (List String) := none
  identifiersType : Option String := none
  variationParentSku : Option String := none
  packageHierarchySku : Option String := none
  createdAfter : Option String := none
  createdBefore : Option String := none
  lastUpdatedAfter : Option String := none
  lastUpdatedBefore : Option String := none
  withIssueSeverity : Option (List String) := none
  withStatus : Option (List String) := none
  withoutStatus : Option (List String) := none
  sortBy : Option String := none
  sortOrder : Option String := none
  pageSize : Option Int := none
  pageToken : Option String := none
deriving Repr, DecidableEq

/-! ## Parameter validator (`searchListingsItemsQueryParamsSchema`)

Each per-field definition renders one key of the Joi object schema,
producing that key's violation messages (the overridden message where the
schema overrides one, Joi's default template otherwise). -/

/-- JavaScript truthiness of an optional string value: `undefined` and the
empty string are falsy, every other string is truthy. -/
def strTruthy : Option String → Bool
  | some s => !(s == "")
  | none => false

/-- `String.prototype.trim`: the string with leading and trailing whitespace
removed. -/
def jsTrim (s : String) : String :=
  String.mk (((s.data.dropWhile Char.isWhitespace).reverse.dropWhile Char.isWhitespace).reverse)

/-- `sellerId: Joi.string().trim().min(1).required()` with the overridden
`string.empty` message. The field is always present (required in the
TypeScript type), so only the emptiness rule can fire. -/
def sellerIdViol (sellerId : String) : List String :=
  if jsTrim sellerId = "" then ["sellerId is required and cannot be empty"] else []

/-- Joi's default `string.empty` message for an array element at index `i`. -/
def itemEmptyMsg (field : String) (i : Nat) : String :=
  "\"" ++ field ++ "[" ++ toString i ++ "]\" is not allowed to be empty"

/-- Violations of `.items(Joi.string().trim().min(1))`: one per element that
is empty after trimming. -/
def arrayItemEmptyViols (field : String) (l : List String) : List String :=
  (l.enum.filter (fun p => jsTrim p.2 = "")).map (fun p => itemEmptyMsg field p.1)

/-- `marketplaceIds: Joi.array().items(string.trim.min(1)).min(1).max(1).required()`
with the overridden `array.min` / `array.max` messages. -/
def marketplaceIdsViol (l : List String) : List String :=
  arrayItemEmptyViols "marketplaceIds" l ++
  (if l.length < 1 then ["marketplaceIds must contain at least one marketplace ID"] else []) ++
  (if 1 < l.length then ["marketplaceIds can contain at most 1 marketplace ID"] else [])

/-- An optional `Joi.string().trim()` (also with `.min(1)`) key: the only
possible violation is Joi's default rejection of a string that is empty
after trimming. -/
def optStringViol (field : String) : Option String → List String
  | some s => if jsTrim s = "" then ["\"" ++ field ++ "\" is not allowed to be empty"] else []
  | none => []

/-- `identifiers: Joi.array().items(string.trim.min(1)).max(20)` with the
overridden `array.max` message. -/
def identifiersViol : Option (List String) → List String
  | some l =>
      arrayItemEmptyViols "identifiers" l ++
      (if 20 < l.length then ["identifiers can contain at most 20 items"] else [])
  | none => []

/-- An optional `Joi.string().valid(...)` key: a value outside the allowed
list yields the schema's overridden `any.only` message. -/
def enumViol (valid : List String) (msg : String) : Option String → List String
  | some s => if s ∈ valid then [] else [msg]
  | none => []

/-- An optional `Joi.array().items(Joi.string().valid(...))` key: one
overridden `any.only` message per element outside the allowed list. -/
def enumArrayViol (valid : List String) (msg : String) : Option (List String) → List String
  | some l => (l.filter (fun s => decide (s ∉ valid))).map (fun _ => msg)
  | none => []

def validIdentifiersTypes : List String :=
  ["SKU", "ASIN", "EAN", "FNSKU", "GTIN", "ISBN", "JAN", "MINSAN", "UPC"]

def validIncludedData : List String :=
  ["summaries", "attributes", "issues", "offers",
   "fulfillmentAvailability", "procurement", "relationships", "productTypes"]

def validSeverities : List String := ["ERROR", "WARNING", "INFO"]

def validStatuses : List String := ["BUYABLE", "DISCOVERABLE"]

def validSortBy : List String := ["sku", "createdDate", "lastUpdatedDate"]

def validSortOrder : List String := ["ASC", "DESC"]

/-- Consume exactly `n` decimal digits. -/
def takeDigits : Nat → List Char → Option (List Char)
  | 0, l => some l
  | _ + 1, [] => none
  | n + 1, c :: rest => if c.isDigit then takeDigits n rest else none

/-- Consume one expected character. -/
def takeChar (c : Char) : List Char → Option (List Char)
  | [] => none
  | x :: rest => if x = c then some rest else none

/-- An optional fractional-seconds part `.ddd`. -/
def takeFraction : List Char → Option (List Char)
  | '.' :: rest =>
      if (rest.takeWhile Char.isDigit).isEmpty then none
      else some (rest.dropWhile Char.isDigit)
  | l => some l

/-- The optional zone designator: nothing, `Z`, or `±HH:MM`. -/
def zoneOk : List Char → Bool
  | [] => true
  | ['Z'] => true
  | c :: rest =>
      (c = '+' || c = '-') &&
      (takeDigits 2 rest >>= takeChar ':' >>= takeDigits 2) = some []

/-- The optional time-of-day part `THH:MM[:SS[.fff]]` plus zone. -/
def timeOk : List Char → Bool
  | [] => true
  | 'T' :: rest =>
      match takeDigits 2 rest >>= takeChar ':' >>= takeDigits 2 with
      | none => false
      | some l =>
        match l with
        | ':' :: l' =>
            match takeDigits 2 l' >>= takeFraction with
            | none => false
            | some l'' => zoneOk l''
        | _ => zoneOk l
  | _ => false

/-- Models the Joi `isoDate` check on the calendar date-time forms this API
uses: `YYYY-MM-DD`, optionally followed by `THH:MM[:SS[.fff]]` and a zone
(`Z` or `±HH:MM`). A simplification of Joi's full ISO-8601 expression (week
dates, ordinal dates and some compressed forms are not recognised); no claim
depends on the finer structure of this check. -/
def isIsoDate (s : String) : Bool :=
  match takeDigits 4 s.data >>= takeChar '-' >>= takeDigits 2 >>= takeChar '-' >>= takeDigits 2 with
  | none => false
  | some rest => timeOk rest

/-- A `Joi.string().isoDate()` key with its overridden `string.isoDate`
message. -/
def dateViol (msg : String) : Option String → List String
  | some s => if isIsoDate s then [] else [msg]
  | none => []

/-- `pageSize: Joi.number().integer().min(1).max(20)` with the overridden
(identical) `number.min` / `number.max` messages; the integer rule cannot
fire on an `Int`. -/
def pageSizeViol : Option Int → List String
  | some n =>
      (if n < 1 then ["pageSize must be between 1 and 20"] else []) ++
      (if 20 < n then ["pageSize must be between 1 and 20"] else [])
  | none => []

/-- All key-level (field-level) violations of the Joi object schema, in the
schema's key order. -/
def fieldViolations (p : SearchListingsItemsQueryParams) : List String :=
  sellerIdViol p.sellerId ++
  marketplaceIdsViol p.marketplaceIds ++
  optStringViol "issueLocale" p.issueLocale ++
  enumArrayViol validIncludedData
    "includedData must contain only valid values: summaries, attributes, issues, offers, fulfillmentAvailability, procurement, relationships, productTypes"
    p.includedData ++
  identifiersViol p.identifiers ++
  enumViol validIdentifiersTypes
    "identifiersType must be one of: SKU, ASIN, EAN, FNSKU, GTIN, ISBN, JAN, MINSAN, UPC"
    p.identifiersType ++
  optStringViol "variationParentSku" p.variationParentSku ++
  optStringViol "packageHierarchySku" p.packageHierarchySku ++
  dateViol "createdAfter must be a valid ISO 8601 date-time string" p.createdAfter ++
  dateViol "createdBefore must be a valid ISO 8601 date-time string" p.createdBefore ++
  dateViol "lastUpdatedAfter must be a valid ISO 8601 date-time string" p.lastUpdatedAfter ++
  dateViol "lastUpdatedBefore must be a valid ISO 8601 date-time string" p.lastUpdatedBefore ++
  enumArrayViol validSeverities
    "withIssueSeverity must contain only valid values: ERROR, WARNING, INFO"
    p.withIssueSeverity ++
  enumArrayViol validStatuses
    "withStatus must contain only valid values: BUYABLE, DISCOVERABLE"
    p.withStatus ++
  enumArrayViol validStatuses
    "withoutStatus must contain only valid values: BUYABLE, DISCOVERABLE"
    p.withoutStatus ++
  enumViol validSortBy "sortBy must be one of: sku, createdDate, lastUpdatedDate" p.sortBy ++
  enumViol validSortOrder "sortOrder must be either ASC or DESC" p.sortOrder ++
  pageSizeViol p.pageSize ++
  optStringViol "pageToken" p.pageToken

/-- `value.identifiers && value.identifiers.length > 0` of the custom rule:
the key is present with a non-empty array. -/
def identifiersHasValue : Option (List String) → Bool
  | some l => !l.isEmpty
  | none => false

/-- The `exclusiveParams` list of the custom rule, already filtered to the
parameters that have a value, in the order the source lists them. The rule
runs on Joi's converted (trimmed) value; trimming never changes the
truthiness of a value that passed the key rules, so the original fields are
read here. -/
def exclusiveNames (p : SearchListingsItemsQueryParams) : List String :=
  (if identifiersHasValue p.identifiers then ["identifiers"] else []) ++
  (if strTruthy p.variationParentSku then ["variationParentSku"] else []) ++
  (if strTruthy p.packageHierarchySku then ["packageHierarchySku"] else [])

def identifiersTypeRequiredMsg : String :=
  "identifiersType is required when identifiers are provided"

/-- The `custom.mutuallyExclusive` message with its `params` interpolation. -/
def mutuallyExclusiveMsg (params : String) : String :=
  "Cannot use multiple exclusive parameters: " ++ params ++
  ". Use only one of: identifiers, variationParentSku, or packageHierarchySku"

/-- The object-level `.custom(...)` rule: it returns the conditional
requirement error first, and only otherwise checks mutual exclusivity, so it
reports at most one violation. -/
def customViolation (p : SearchListingsItemsQueryParams) : Option String :=
  if identifiersHasValue p.identifiers && !strTruthy p.identifiersType then
    some identifiersTypeRequiredMsg
  else if 1 < (exclusiveNames p).length then
    some (mutuallyExclusiveMsg (String.intercalate ", " (exclusiveNames p)))
  else
    none

/-- Joi's `abortEarly: true` reporting: the first key-level violation if
there is one, else the custom rule's violation if any. -/
def firstOnly (fieldViols : List String) (customViol : Option String) : List String :=
  match fieldViols with
  | m :: _ => [m]
  | [] => customViol.toList

/-- `validateSearchParams` = `schema.validate(params)` with Joi's default
options, in particular `abortEarly: true`: validation stops at the first
violation, so the reported `error.details` holds at most one message, and
the object-level custom rule only runs once every key rule has passed. -/
def validateSearchParamsDetails (p : SearchListingsItemsQueryParams) : List String :=
  firstOnly (fieldViolations p) (customViolation p)

/-- The message of the `Error` thrown by `validateSearchParamsOrThrow`
(`none` when validation passes). -/
def validateSearchParamsErrorMessage (p : SearchListingsItemsQueryParams) : Option String :=
  match validateSearchParamsDetails p with
  | [] => none
  | ms => some ("Validation failed: " ++ String.intercalate ", " ms)

/-! ## Query serializer (`buildQueryString` in the client module)

`URLSearchParams` is modelled by its ordered list of key-value pairs;
`append` adds at the end, `set` overwrites the first pair with the key and
deletes the rest (appending when the key is new), and `toString` joins
`encode(k)=encode(v)` with `&` in insertion order under
application/x-www-form-urlencoded escaping. -/

abbrev QueryPairs := List (String × String)

/-- `URLSearchParams.append`. -/
def qpAppend (q : QueryPairs) (k v : String) : QueryPairs := q ++ [(k, v)]

/-- `URLSearchParams.set`. -/
def qpSet : QueryPairs → String → String → QueryPairs
  | [], k, v => [(k, v)]
  | (k0, v0) :: rest, k, v =>
      if k0 = k then (k, v) :: rest.filter (fun pr => !(pr.1 == k))
      else (k0, v0) :: qpSet rest k v

/-- `list.forEach(x => queryParams.append(key, x))`. -/
def qpAppendAll (q : QueryPairs) (k : String) (vs : List String) : QueryPairs :=
  vs.foldl (fun acc v => qpAppend acc k v) q

/-- `if (params.x?.length) { params.x.forEach(append) }`: a missing or
empty array is falsy and contributes nothing. -/
def qpAppendArrayField (q : QueryPairs) (k : String) : Option (List String) → QueryPairs
  | some vs => if vs.isEmpty then q else qpAppendAll q k vs
  | none => q

/-- `if (params.x) { queryParams.set(key, params.x) }`: set only when the
string is truthy. -/
def qpSetStrField (q : QueryPairs) (k : String) : Option String → QueryPairs
  | some v => if v = "" then q else qpSet q k v
  | none => q

/-- `if (params.pageSize !== undefined) { queryParams.set('pageSize',
params.pageSize.toString()) }`: presence, not truthiness, is tested. -/
def qpSetPageSize (q : QueryPairs) : Option Int → QueryPairs
  | some n => qpSet q "pageSize" (toString n)
  | none => q

/-- The pairs `buildQueryString` accumulates in its `URLSearchParams`, in
source order. -/
def buildQueryStringPairs (p : SearchListingsItemsQueryParams) : QueryPairs :=
  let q : QueryPairs := []
  let q := qpAppendAll q "marketplaceIds" p.marketplaceIds
  let q := qpSetStrField q "issueLocale" p.issueLocale
  let q := qpAppendArrayField q "includedData" p.includedData
  let q := qpAppendArrayField q "identifiers" p.identifiers
  let q := qpSetStrField q "identifiersType" p.identifiersType
  let q := qpSetStrField q "variationParentSku" p.variationParentSku
  let q := qpSetStrField q "packageHierarchySku" p.packageHierarchySku
  let q := qpSetStrField q "createdAfter" p.createdAfter
  let q := qpSetStrField q "createdBefore" p.createdBefore
  let q := qpSetStrField q "lastUpdatedAfter" p.lastUpdatedAfter
  let q := qpSetStrField q "lastUpdatedBefore" p.lastUpdatedBefore
  let q := qpAppendArrayField q "withIssueSeverity" p.withIssueSeverity
  let q := qpAppendArrayField q "withStatus" p.withStatus
  let q := qpAppendArrayField q "withoutStatus" p.withoutStatus
  let q := qpSetStrField q "sortBy" p.sortBy
  let q := qpSetStrField q "sortOrder" p.sortOrder
  let q := qpSetPageSize q p.pageSize
  qpSetStrField q "pageToken" p.pageToken

/-- The `key=value` pairs for one key, in order. -/
def pairsFor (k : String) (q : QueryPairs) : QueryPairs :=
  q.filter (fun pr => pr.1 == k)

/-- One `key=value` pair per element, in the elements' order. -/
def seqPairs (k : String) (vs : List String) : QueryPairs :=
  vs.map (fun v => (k, v))

/-- Uppercase hexadecimal digit. -/
def hexDigit (n : Nat) : Char :=
  if n < 10 then Char.ofNat (48 + n) else Char.ofNat (55 + n)

/-- `%XX` escape of one byte. -/
def percentByte (b : Nat) : String :=
  "%" ++ String.mk [hexDigit (b / 16), hexDigit (b % 16)]

/-- The UTF-8 bytes of a code point. -/
def utf8Bytes (n : Nat) : List Nat :=
  if n < 128 then [n]
  else if n < 2048 then [192 + n / 64, 128 + n % 64]
  else if n < 65536 then [224 + n / 4096, 128 + (n / 64) % 64, 128 + n % 64]
  else [240 + n / 262144, 128 + (n / 4096) % 64, 128 + (n / 64) % 64, 128 + n % 64]

/-- application/x-www-form-urlencoded escaping of one character, as
`URLSearchParams.toString` performs it: space becomes `+`; ASCII letters,
digits and `*-._` stay; everything else is percent-encoded bytewise. -/
def formEncodeChar (c : Char) : String :=
  if c = ' ' then "+"
  else if c.isAlphanum || c = '*' || c = '-' || c = '.' || c = '_' then String.singleton c
  else String.join ((utf8Bytes c.toNat).map percentByte)

def formEncode (s : String) : String :=
  String.join (s.data.map formEncodeChar)

/-- `URLSearchParams.toString`. -/
def qpToString (q : QueryPairs) : String :=
  String.intercalate "&" (q.map (fun pr => formEncode pr.1 ++ "=" ++ formEncode pr.2))

/-- `buildQueryString` of the client. -/
def buildQueryString (p : SearchListingsItemsQueryParams) : String :=
  qpToString (buildQueryStringPairs p)

/-- The characters `encodeURIComponent` leaves unescaped. -/
def uriComponentSafe (c : Char) : Bool :=
  c.isAlphanum || c = '-' || c = '_' || c = '.' || c = '!' || c = '~' || c = '*' ||
  c = Char.ofNat 39 || c = '(' || c = ')'

def encodeURIComponent (s : String) : String :=
  String.join (s.data.map (fun c =>
    if uriComponentSafe c then String.singleton c
    else String.join ((utf8Bytes c.toNat).map percentByte)))

/-! ## Config validator (`spApiClientConfigSchema`) and client facade -/

structure SpApiClientConfig where
  baseUrl : String
  timeout : Option Int := none
  headers : Option (List (String × String)) := none
deriving Repr, DecidableEq

/-- JavaScript `a || b` for an optional number (only `0` is falsy here). -/
def jsOrInt : Option Int → Int → Int
  | some n, d => if n = 0 then d else n
  | none, d => d

/-- JavaScript `a || b` for an optional string (only `""` is falsy). -/
def jsOrStr : Option String → String → String
  | some s, d => if s = "" then d else s
  | none, d => d

/-- JavaScript `a || b` on two strings. -/
def jsOrString (a b : String) : String :=
  if a = "" then b else a

/-- The non-scheme part of an `http://` or `https://` URL, when the string
has such a scheme. -/
def schemeRest (l : List Char) : Option (List Char) :=
  if l.take 7 = "http://".data then some (l.drop 7)
  else if l.take 8 = "https://".data then some (l.drop 8)
  else none

/-- The list has a character other than `/`. -/
def hasNonSlash (l : List Char) : Bool :=
  l.any (fun c => !(c == '/'))

def uriCheckL (l : List Char) : Bool :=
  match schemeRest l with
  | some rest => hasNonSlash rest
  | none => false

/-- Models the Joi `uri({scheme: ['http', 'https']})` rule of the config
schema: an `http`/`https` scheme followed by a non-empty authority-or-path
part. A simplification of the full RFC 3986 grammar Joi implements; it
agrees with it on every URL this development considers. -/
def isHttpHttpsUri (s : String) : Bool :=
  uriCheckL s.data

/-- All violations of `spApiClientConfigSchema`, in key order. A `headers`
value typed `Record<string, string>` cannot violate its pattern rule, so it
contributes none. -/
def configViolations (c : SpApiClientConfig) : List String :=
  (if isHttpHttpsUri c.baseUrl then [] else ["baseUrl must be a valid HTTP or HTTPS URL"]) ++
  (match c.timeout with
   | some t =>
       (if t < 1000 then ["timeout must be at least 1000ms (1 second)"] else []) ++
       (if 300000 < t then ["timeout must be at most 300000ms (5 minutes)"] else [])
   | none => [])

/-- The client state: `baseUrl` (trailing slash stripped), `timeout`
(defaulted), `defaultHeaders`. -/
structure AmazonSpApiClient where
  baseUrl : String
  timeout : Int
  defaultHeaders : List (String × String)
deriving Repr, DecidableEq

/-- JavaScript object spread `{...a, ...b}` on string-keyed records:
`a`'s keys in their order with `b`'s values winning on collision, then
`b`'s remaining keys in their order. -/
def recordMerge (a b : List (String × String)) : List (String × String) :=
  a.map (fun kv => (kv.1, (List.lookup kv.1 b).getD kv.2)) ++
  b.filter (fun kv => (List.lookup kv.1 a).isNone)

/-- `{'Content-Type': 'application/json', 'Accept': 'application/json'}`. -/
def defaultJsonHeaders : List (String × String) :=
  [("Content-Type", "application/json"), ("Accept", "application/json")]

/-- `config.baseUrl.replace(/\/$/, '')`: one trailing slash removed. -/
def stripSlashL (l : List Char) : List Char :=
  if l.getLast? = some '/' then l.dropLast else l

def stripTrailingSlash (s : String) : String :=
  String.mk (stripSlashL s.data)

/-- The constructor: `validateClientConfigOrThrow` (the thrown configuration
error is `none`), then the state initialization of the source. -/
def mkClient (config : SpApiClientConfig) : Option AmazonSpApiClient :=
  if configViolations config = [] then
    some
      { baseUrl := stripTrailingSlash config.baseUrl
        timeout := jsOrInt config.timeout 30000
        defaultHeaders := recordMerge defaultJsonHeaders (config.headers.getD []) }
  else none

structure PartialSpApiClientConfig where
  baseUrl : Option String := none
  timeout : Option Int := none
  headers : Option (List (String × String)) := none
deriving Repr, DecidableEq

/-- The `removeHeaders` method: `delete this.defaultHeaders[name]` for each
given name, in order; the resulting state of `this`. -/
def removeHeaders (c : AmazonSpApiClient) (headerNames : List String) : AmazonSpApiClient :=
  { c with
    defaultHeaders :=
      headerNames.foldl (fun hs name => hs.filter (fun kv => !(kv.1 == name)))
        c.defaultHeaders }

/-- `withConfig`: the merged config uses JavaScript `||` for the scalar
fields and an object spread over `this.defaultHeaders` for headers, then
construction (with its validation) runs again. The second component is the
state of `this` after the call; the method only reads it. -/
def withConfigS (c : AmazonSpApiClient) (overrides : PartialSpApiClientConfig) :
    Option AmazonSpApiClient × AmazonSpApiClient :=
  (mkClient
    { baseUrl := jsOrStr overrides.baseUrl c.baseUrl
      timeout := some (jsOrInt overrides.timeout c.timeout)
      headers := some (recordMerge c.defaultHeaders (overrides.headers.getD [])) },
   c)

/-! ## Error normalizer (`errors` module) -/

/-- JSON values: the shape of a parsed HTTP response body. -/
inductive Json where
  | null
  | bool (b : Bool)
  | num (n : Int)
  | str (s : String)
  | arr (elems : List Json)
  | obj (fields : List (String × Json))

/-- JavaScript truthiness of a JSON value (arrays and objects are always
truthy). -/
def Json.truthy : Json → Bool
  | .null => false
  | .bool b => b
  | .num n => !(n == 0)
  | .str s => !(s == "")
  | .arr _ => true
  | .obj _ => true

def Json.isArr : Json → Bool
  | .arr _ => true
  | _ => false

/-- JavaScript property access `value.key` (`undefined` on non-objects). -/
def Json.field? : Json → String → Option Json
  | .obj fs, k => List.lookup k fs
  | _, _ => none

/-- `JSON.stringify` escaping of one character (restricted to the escapes
that can occur in this development). -/
def jsonEscapeChar (c : Char) : String :=
  if c = '"' then "\\\""
  else if c = '\\' then "\\\\"
  else if c = Char.ofNat 10 then "\\n"
  else if c = Char.ofNat 13 then "\\r"
  else if c = Char.ofNat 9 then "\\t"
  else String.singleton c

def jsonEscape (s : String) : String :=
  String.join (s.data.map jsonEscapeChar)

mutual

/-- `JSON.stringify`. -/
def Json.stringify : Json → String
  | .null => "null"
  | .bool true => "true"
  | .bool false => "false"
  | .num n => toString n
  | .str s => "\"" ++ jsonEscape s ++ "\""
  | .arr es => "[" ++ stringifyElems es ++ "]"
  | .obj fs => "\x7b" ++ stringifyFields fs ++ "\x7d"

def stringifyElems : List Json → String
  | [] => ""
  | [j] => Json.stringify j
  | j :: rest => Json.stringify j ++ "," ++ stringifyElems rest

def stringifyFields : List (String × Json) → String
  | [] => ""
  | [(k, v)] => "\"" ++ jsonEscape k ++ "\":" ++ Json.stringify v
  | (k, v) :: rest =>
      "\"" ++ jsonEscape k ++ "\":" ++ Json.stringify v ++ "," ++ stringifyFields rest

end

/-- One entry of an SP-API error response (`SpApiError` in the types
module). -/
structure SpApiError where
  code : String
  message : String
  details : Option String := none
deriving Repr, DecidableEq

/-- The `errors` array of an `SpApiClientError`: either the body's `errors`
array taken verbatim (kept as raw JSON, exactly as the untyped assignment in
the source does) or the synthesized fallback list. -/
inductive ErrorsValue where
  | verbatim (raw : List Json)
  | synthesized (errs : List SpApiError)

/-- The `SpApiClientError` state set by its constructor. -/
structure SpApiClientError where
  statusCode : Int
  errors : ErrorsValue
  requestId : Option String := none
  rateLimit : Option String := none

/-- `isRateLimitError()`. -/
def SpApiClientError.isRateLimitError (e : SpApiClientError) : Bool :=
  e.statusCode == 429

/-- `getHttpErrorMessage`. -/
def getHttpErrorMessage (statusCode : Int) : String :=
  if statusCode = 400 then "Request has missing or invalid parameters and cannot be parsed"
  else if statusCode = 401 then "The request is unauthorized. Check your authentication credentials"
  else if statusCode = 403 then "Access to the resource is forbidden. Possible reasons include Access Denied, Unauthorized, Expired Token, or Invalid Signature"
  else if statusCode = 404 then "The resource specified does not exist"
  else if statusCode = 413 then "The request size exceeded the maximum accepted size"
  else if statusCode = 415 then "The request payload is in an unsupported format"
  else if statusCode = 429 then "The frequency of requests was greater than allowed"
  else if statusCode = 500 then "An unexpected condition occurred that prevented the server from fulfilling the request"
  else if statusCode = 502 then "Bad gateway - the server received an invalid response from an upstream server"
  else if statusCode = 503 then "Temporary overloading or maintenance of the server"
  else if statusCode = 504 then "Gateway timeout - the server did not receive a timely response from an upstream server"
  else "HTTP " ++ toString statusCode ++ " error"

/-- An HTTP error response as axios delivers it: status, parsed body,
headers (axios lower-cases response-header names). -/
structure AxiosResponse where
  status : Int
  data : Json
  headers : List (String × String)

/-- The three shapes of axios error the source distinguishes:
`error.response` present (HTTP status the client's `validateStatus`
rejected), `error.request` present without a response (network failure),
neither (request setup failure). Every axios error carries a `message`. -/
inductive AxiosErrorModel where
  | httpResponse (resp : AxiosResponse) (message : String)
  | noResponse (message : String)
  | setupFailure (message : String)

/-- `responseData.errors && Array.isArray(responseData.errors)`. -/
def errorsFieldIsArray (data : Json) : Bool :=
  match data.field? "errors" with
  | some e => e.truthy && e.isArr
  | none => false

/-- The guard of the verbatim branch:
`responseData && responseData.errors && Array.isArray(responseData.errors)`. -/
def useVerbatimErrors (data : Json) : Bool :=
  data.truthy && errorsFieldIsArray data

def errorsArrayOf (data : Json) : List Json :=
  match data.field? "errors" with
  | some (.arr l) => l
  | _ => []

/-- `createSpApiErrorFromAxiosError`. -/
def createSpApiErrorFromAxiosError : AxiosErrorModel → SpApiClientError
  | .httpResponse resp errMessage =>
      { statusCode := resp.status
        errors :=
          if useVerbatimErrors resp.data then .verbatim (errorsArrayOf resp.data)
          else
            .synthesized
              [{ code := "HTTP_" ++ toString resp.status
                 message := jsOrString (getHttpErrorMessage resp.status)
                   (jsOrString errMessage ("HTTP " ++ toString resp.status ++ " error"))
                 details := if resp.data.truthy then some resp.data.stringify else none }]
        requestId := List.lookup "x-amzn-requestid" resp.headers
        rateLimit := List.lookup "x-amzn-ratelimit-limit" resp.headers }
  | .noResponse errMessage =>
      { statusCode := 0
        errors := .synthesized
          [{ code := "NETWORK_ERROR"
             message := "Network error occurred while making the request"
             details := some errMessage }] }
  | .setupFailure errMessage =>
      { statusCode := 0
        errors := .synthesized
          [{ code := "REQUEST_SETUP_ERROR"
             message := "Error setting up the request"
             details := some errMessage }] }

/-! ## `searchListingsItems` -/

/-- What one call to the transport capability (`axios.get` with the
client's `validateStatus`) yields. -/
inductive TransportOutcome where
  | ok (body : Json)
  | axiosFailure (e : AxiosErrorModel)

/-- The outcome of `searchListingsItems`: the typed body, the rethrown
validation `Error` (not an axios error, so the catch block passes it on
unchanged), or the `SpApiClientError` built from an axios error. -/
inductive SearchOutcome where
  | success (body : Json)
  | validationFailure (message : String)
  | apiFailure (e : SpApiClientError)

/-- The URL `searchListingsItems` builds. -/
def requestUrl (c : AmazonSpApiClient) (p : SearchListingsItemsQueryParams) : String :=
  c.baseUrl ++ "/listings/2021-08-01/items/" ++ encodeURIComponent p.sellerId ++ "?" ++
    buildQueryString p

/-- `searchListingsItems` against a transport capability: validation first
(`validateSearchParamsOrThrow`), then one GET. The second component is the
list of requests issued during the call. -/
def searchListingsItemsRun (c : AmazonSpApiClient)
    (transport : String → List (String × String) → Int → TransportOutcome)
    (p : SearchListingsItemsQueryParams) : SearchOutcome × List String :=
  match validateSearchParamsErrorMessage p with
  | some msg => (.validationFailure msg, [])
  | none =>
      let url := requestUrl c p
      match transport url c.defaultHeaders c.timeout with
      | .ok body => (.success body, [url])
      | .axiosFailure e => (.apiFailure (createSpApiErrorFromAxiosError e), [url])

/-! ### Concrete parameter records used as test inputs -/

/-- Both required fields invalid: the README documents this exact input. -/
def emptyRequiredParams : SearchListingsItemsQueryParams :=
  { sellerId := "", marketplaceIds := [] }

/-- The minimal valid request. -/
def minimalParams : SearchListingsItemsQueryParams :=
  { sellerId := "S1", marketplaceIds := ["M1"] }

/-- Non-empty `identifiers` with `identifiersType` absent. -/
def identifiersNoTypeParams : SearchListingsItemsQueryParams :=
  { minimalParams with identifiers := some ["X"] }

/-- Non-empty `identifiers` with `identifiersType` given. -/
def identifiersWithTypeParams : SearchListingsItemsQueryParams :=
  { minimalParams with identifiers := some ["X"], identifiersType := some "ASIN" }

/-- Two mutually exclusive parameters set, `identifiersType` given. -/
def exclusiveWithTypeParams : SearchListingsItemsQueryParams :=
  { minimalParams with
    identifiers := some ["X"]
    identifiersType := some "ASIN"
    variationParentSku := some "P" }

/-- Two mutually exclusive parameters set, `identifiersType` absent: both
cross-field rules are violated at once. -/
def exclusiveNoTypeParams : SearchListingsItemsQueryParams :=
  { minimalParams with identifiers := some ["X"], variationParentSku := some "P" }

/-! ### Concrete configs, clients and errors used as test inputs -/

/-- A valid config whose URL ends in a doubled slash. -/
def doubleSlashConfig : SpApiClientConfig :=
  { baseUrl := "https://x.example.com//", headers := some [("a", "b")] }

/-- The client `doubleSlashConfig` constructs: its stored `baseUrl` still
ends in one `/`. -/
def slashClient : AmazonSpApiClient :=
  { baseUrl := "https://x.example.com/"
    timeout := 30000
    defaultHeaders :=
      [("Content-Type", "application/json"), ("Accept", "application/json"), ("a", "b")] }

/-- An ordinary client with one custom header `a: b`. -/
def baseClient : AmazonSpApiClient :=
  { baseUrl := "https://api.example.com"
    timeout := 30000
    defaultHeaders :=
      [("Content-Type", "application/json"), ("Accept", "application/json"), ("a", "b")] }

/-- `withConfig({headers: {h: v}})`. -/
def headerOverride : PartialSpApiClientConfig :=
  { headers := some [("h", "v")] }

/-- The client that call produces from `baseClient`. -/
def mergedClient : AmazonSpApiClient :=
  { baseUrl := "https://api.example.com"
    timeout := 30000
    defaultHeaders :=
      [("Content-Type", "application/json"), ("Accept", "application/json"),
       ("a", "b"), ("h", "v")] }

/-- A 429 body with no `errors` array. -/
def rateLimitBody : Json :=
  Json.obj [("message", Json.str "Too many requests")]

/-- The axios error for a 429 response carrying that body. -/
def rateLimitAxiosError : AxiosErrorModel :=
  .httpResponse
    { status := 429
      data := rateLimitBody
      headers := [("x-amzn-requestid", "req-1"), ("x-amzn-ratelimit-limit", "0.5")] }
    "Request failed with status code 429"

/-- A transport that always answers with an empty body. -/
def nullTransport : String → List (String × String) → Int → TransportOutcome :=
  fun _ _ _ => .ok Json.null

/-- A valid config with one custom header. -/
def apiConfig : SpApiClientConfig :=
  { baseUrl := "https://api.example.com", headers := some [("a", "b")] }

/-- The client obtained from `baseClient` by `removeHeaders(["Content-Type"])`:
its `Content-Type` entry is gone. -/
def noCTClient : AmazonSpApiClient :=
  { baseUrl := "https://api.example.com"
    timeout := 30000
    defaultHeaders := [("Accept", "application/json"), ("a", "b")] }

/-! # Theorems -/

/-! ## Validator lemmas -/

theorem enumViol_some_eq_nil {valid : List String} {msg t : String}
    (h : enumViol valid msg (some t) = []) : t ∈ valid := by
  by_cases hm : t ∈ valid
  · exact hm
  · simp [enumViol, hm] at h

theorem validIdentifiersTypes_ne_empty {t : String}
    (h : t ∈ validIdentifiersTypes) : (t == "") = false := by
  simp only [validIdentifiersTypes, List.mem_cons, List.not_mem_nil, or_false] at h
  rcases h with rfl | rfl | rfl | rfl | rfl | rfl | rfl | rfl | rfl <;> rfl

theorem firstOnly_eq_nil {l : List String} {o : Option String}
    (h : firstOnly l o = []) : l = [] ∧ o = none := by
  cases l with
  | cons m rest => simp [firstOnly] at h
  | nil =>
      cases o with
      | some m => simp [firstOnly] at h
      | none => exact ⟨rfl, rfl⟩

theorem validateDetails_eq_nil {p : SearchListingsItemsQueryParams}
    (h : validateSearchParamsDetails p = []) :
    fieldViolations p = [] ∧ customViolation p = none :=
  firstOnly_eq_nil h

theorem validateDetails_of_nil {p : SearchListingsItemsQueryParams}
    (hf : fieldViolations p = []) (hc : customViolation p = none) :
    validateSearchParamsDetails p = [] := by
  unfold validateSearchParamsDetails
  rw [hf, hc]
  rfl

/-! ## C1 -/

/-- C1: the specification (and the repository README, at this exact input)
requires every violation to be reported, but `validateSearchParams` calls
Joi `validate` with the default `abortEarly: true`. At
`{sellerId: "", marketplaceIds: []}` two field rules are violated, yet the
reported details hold only the first message, and the error
`validateSearchParamsOrThrow` throws carries that one message rather than
the two the README shows. -/
theorem validation_reports_only_first_violation :
    fieldViolations emptyRequiredParams =
      ["sellerId is required and cannot be empty",
       "marketplaceIds must contain at least one marketplace ID"] ∧
    validateSearchParamsDetails emptyRequiredParams =
      ["sellerId is required and cannot be empty"] ∧
    validateSearchParamsErrorMessage emptyRequiredParams =
      some "Validation failed: sellerId is required and cannot be empty" :=
  ⟨by decide, by decide, by decide⟩

/-! ## C3 -/

/-- C3: for every params record that passes every field-level rule, a
non-empty `identifiers` with `identifiersType` absent fails validation with
the conditional-requirement violation, while with `identifiersType` present
(and the mutual-exclusivity rule not violated) validation succeeds. -/
theorem identifiersType_conditional_requirement
    (p : SearchListingsItemsQueryParams) (hf : fieldViolations p = []) :
    (identifiersHasValue p.identifiers = true → p.identifiersType = none →
      validateSearchParamsDetails p = [identifiersTypeRequiredMsg]) ∧
    (p.identifiersType.isSome = true → (exclusiveNames p).length ≤ 1 →
      validateSearchParamsDetails p = []) := by
  constructor
  · intro hi hnone
    simp [validateSearchParamsDetails, firstOnly, hf, customViolation, hi, hnone, strTruthy]
  · intro hsome hle
    obtain ⟨t, ht⟩ := Option.isSome_iff_exists.mp hsome
    have h6 : enumViol validIdentifiersTypes
        "identifiersType must be one of: SKU, ASIN, EAN, FNSKU, GTIN, ISBN, JAN, MINSAN, UPC"
        p.identifiersType = [] := by
      simp only [fieldViolations, List.append_eq_nil, and_assoc] at hf
      exact hf.2.2.2.2.2.1
    rw [ht] at h6
    have hmem := enumViol_some_eq_nil h6
    have htr : strTruthy p.identifiersType = true := by
      simp [strTruthy, ht, validIdentifiersTypes_ne_empty hmem]
    have hnlt : ¬ (1 < (exclusiveNames p).length) := by omega
    simp [validateSearchParamsDetails, firstOnly, hf, customViolation, htr, hnlt]

theorem identifiersType_conditional_requirement_witness :
    (fieldViolations identifiersNoTypeParams = [] ∧
     validateSearchParamsDetails identifiersNoTypeParams = [identifiersTypeRequiredMsg]) ∧
    (fieldViolations identifiersWithTypeParams = [] ∧
     validateSearchParamsDetails identifiersWithTypeParams = []) :=
  ⟨⟨by decide,
    (identifiersType_conditional_requirement identifiersNoTypeParams (by decide)).1
      (by decide) rfl⟩,
   ⟨by decide,
    (identifiersType_conditional_requirement identifiersWithTypeParams (by decide)).2
      (by decide) (by decide)⟩⟩

/-! ## C2 -/

/-- C2 counterexample: a params record that passes every field-level rule
and sets two of the mutually exclusive parameters (`identifiers` non-empty
and `variationParentSku` present) but omits `identifiersType`. Validation
fails, yet the single reported violation is the conditional-requirement
message, not the mutual-exclusivity message the claim requires. -/
theorem mutual_exclusivity_masked_counterexample :
    fieldViolations exclusiveNoTypeParams = [] ∧
    identifiersHasValue exclusiveNoTypeParams.identifiers = true ∧
    strTruthy exclusiveNoTypeParams.variationParentSku = true ∧
    validateSearchParamsDetails exclusiveNoTypeParams = [identifiersTypeRequiredMsg] ∧
    identifiersTypeRequiredMsg ≠ mutuallyExclusiveMsg "identifiers, variationParentSku" :=
  ⟨by decide, by decide, by decide, by decide, by decide⟩

/-- C2 (amended): for every params record that passes the field-level rules
and satisfies cross-field rule A (a truthy `identifiersType` whenever
`identifiers` is non-empty), setting two or more of {`identifiers`
non-empty, `variationParentSku`, `packageHierarchySku`} makes validation
fail with exactly one mutual-exclusivity violation naming the offending
parameters, in the order identifiers, variationParentSku,
packageHierarchySku. -/
theorem mutual_exclusivity_rule (p : SearchListingsItemsQueryParams)
    (hf : fieldViolations p = [])
    (hA : identifiersHasValue p.identifiers = true → strTruthy p.identifiersType = true)
    (h2 : 2 ≤ (exclusiveNames p).length) :
    validateSearchParamsDetails p =
      [mutuallyExclusiveMsg (String.intercalate ", " (exclusiveNames p))] ∧
    (exclusiveNames p).Sublist ["identifiers", "variationParentSku", "packageHierarchySku"] := by
  have hcond : (identifiersHasValue p.identifiers && !strTruthy p.identifiersType) = false := by
    by_cases hi : identifiersHasValue p.identifiers = true
    · simp [hi, hA hi]
    · simp [Bool.not_eq_true] at hi
      simp [hi]
  have hlt : 1 < (exclusiveNames p).length := by omega
  refine ⟨?_, ?_⟩
  · simp [validateSearchParamsDetails, firstOnly, hf, customViolation, hcond, hlt]
  · unfold exclusiveNames
    split_ifs <;> decide

theorem mutual_exclusivity_rule_witness :
    fieldViolations exclusiveWithTypeParams = [] ∧
    validateSearchParamsDetails exclusiveWithTypeParams =
      [mutuallyExclusiveMsg "identifiers, variationParentSku"] :=
  ⟨by decide,
   (mutual_exclusivity_rule exclusiveWithTypeParams (by decide)
      (fun _ => by decide) (by decide)).1⟩

/-! ## C10 -/

/-- C10: when a params record passes the field-level rules but violates
both cross-field rules at once (non-empty `identifiers` without
`identifiersType`, plus `variationParentSku` or `packageHierarchySku`),
only the conditional-requirement violation is reported: the custom rule
returns it before ever evaluating mutual exclusivity. -/
theorem conditional_requirement_shadows_mutual_exclusivity
    (p : SearchListingsItemsQueryParams) (hf : fieldViolations p = [])
    (hi : identifiersHasValue p.identifiers = true)
    (ht : p.identifiersType = none)
    (_hx : strTruthy p.variationParentSku = true ∨ strTruthy p.packageHierarchySku = true) :
    validateSearchParamsDetails p = [identifiersTypeRequiredMsg] := by
  simp [validateSearchParamsDetails, firstOnly, hf, customViolation, hi, ht, strTruthy]

theorem conditional_requirement_shadows_mutual_exclusivity_witness :
    validateSearchParamsDetails exclusiveNoTypeParams = [identifiersTypeRequiredMsg] :=
  conditional_requirement_shadows_mutual_exclusivity exclusiveNoTypeParams
    (by decide) (by decide) rfl (Or.inl (by decide))

/-! ## C6 -/

/-- C6: against a params record whose other fields all validate, `pageSize`
is accepted exactly for the integers of the closed interval [1, 20]; in
particular 0 and 21 fail while 1 and 20 pass. -/
theorem pageSize_accepts_exactly_1_to_20
    (p : SearchListingsItemsQueryParams)
    (h : validateSearchParamsDetails { p with pageSize := none } = []) :
    ∀ n : Int, (validateSearchParamsDetails { p with pageSize := some n } = [] ↔
      1 ≤ n ∧ n ≤ 20) := by
  obtain ⟨hfv, hcv⟩ := validateDetails_eq_nil h
  simp only [fieldViolations, List.append_eq_nil, and_assoc] at hfv
  obtain ⟨a1, a2, a3, a4, a5, a6, a7, a8, a9, a10,
          a11, a12, a13, a14, a15, a16, a17, a18, a19⟩ := hfv
  intro n
  have hcv' : customViolation { p with pageSize := some n } = none := hcv
  constructor
  · intro hn
    obtain ⟨hfvn, _⟩ := validateDetails_eq_nil hn
    simp only [fieldViolations, List.append_eq_nil, and_assoc] at hfvn
    have hps := hfvn.2.2.2.2.2.2.2.2.2.2.2.2.2.2.2.2.2.1
    by_cases h1 : n < 1
    · simp [pageSizeViol, h1] at hps
    · by_cases h2 : 20 < n
      · simp [pageSizeViol, h1, h2] at hps
      · omega
  · rintro ⟨h1, h2⟩
    apply validateDetails_of_nil _ hcv'
    have hn1 : ¬ n < 1 := by omega
    have hn2 : ¬ (20 : Int) < n := by omega
    have hps : pageSizeViol (some n) = [] := by simp [pageSizeViol, hn1, hn2]
    simp only [fieldViolations, List.append_eq_nil, and_assoc]
    exact ⟨a1, a2, a3, a4, a5, a6, a7, a8, a9, a10,
           a11, a12, a13, a14, a15, a16, a17, hps, a19⟩

theorem pageSize_accepts_exactly_1_to_20_witness :
    validateSearchParamsDetails { minimalParams with pageSize := some 0 } ≠ [] ∧
    validateSearchParamsDetails { minimalParams with pageSize := some 21 } ≠ [] ∧
    validateSearchParamsDetails { minimalParams with pageSize := some 1 } = [] ∧
    validateSearchParamsDetails { minimalParams with pageSize := some 20 } = [] := by
  have h := pageSize_accepts_exactly_1_to_20 minimalParams (by decide)
  exact ⟨fun hc => absurd ((h 0).mp hc) (by decide),
         fun hc => absurd ((h 21).mp hc) (by decide),
         (h 1).mpr (by decide),
         (h 20).mpr (by decide)⟩

/-! ## Serializer lemmas -/

theorem pairsFor_append (k : String) (a b : QueryPairs) :
    pairsFor k (a ++ b) = pairsFor k a ++ pairsFor k b := by
  simp [pairsFor, List.filter_append]

theorem pairsFor_cons (k : String) (x : String × String) (q : QueryPairs) :
    pairsFor k (x :: q) = (if x.1 = k then [x] else []) ++ pairsFor k q := by
  by_cases h : x.1 = k <;> simp [pairsFor, List.filter_cons, h]

theorem pairsFor_qpAppend (k k' : String) (q : QueryPairs) (v : String) :
    pairsFor k (qpAppend q k' v) =
      pairsFor k q ++ (if k' = k then [(k', v)] else []) := by
  simp only [qpAppend, pairsFor_append]
  by_cases h : k' = k <;> simp [pairsFor, h]

theorem pairsFor_qpAppendAll_self (k : String) (vs : List String) (q : QueryPairs) :
    pairsFor k (qpAppendAll q k vs) = pairsFor k q ++ seqPairs k vs := by
  induction vs generalizing q with
  | nil => simp [qpAppendAll, seqPairs]
  | cons v vs ih =>
      simp only [qpAppendAll, List.foldl_cons] at *
      rw [ih, pairsFor_qpAppend]
      simp [seqPairs]

theorem pairsFor_qpAppendAll_ne {k' k : String} (h : k' ≠ k) (vs : List String)
    (q : QueryPairs) : pairsFor k (qpAppendAll q k' vs) = pairsFor k q := by
  induction vs generalizing q with
  | nil => rfl
  | cons v vs ih =>
      simp only [qpAppendAll, List.foldl_cons] at *
      rw [ih, pairsFor_qpAppend]
      simp [h]

theorem pairsFor_filter_ne {k' k : String} (h : k' ≠ k) (q : QueryPairs) :
    pairsFor k (q.filter (fun pr => !(pr.1 == k'))) = pairsFor k q := by
  simp only [pairsFor, List.filter_filter]
  apply List.filter_congr
  intro a _
  by_cases ha : a.1 = k
  · have hne : (k == k') = false := by
      simp
      exact fun hh => h hh.symm
    simp [ha, hne]
  · simp [ha]

theorem pairsFor_qpSet_ne {k' k : String} (h : k' ≠ k) (q : QueryPairs) (v : String) :
    pairsFor k (qpSet q k' v) = pairsFor k q := by
  induction q with
  | nil => simp [qpSet, pairsFor, h]
  | cons x rest ih =>
      rcases x with ⟨k0, v0⟩
      by_cases h0 : k0 = k'
      · subst h0
        have e1 : qpSet ((k0, v0) :: rest) k0 v =
            (k0, v) :: rest.filter (fun pr => !(pr.1 == k0)) := by
          simp [qpSet]
        rw [e1, pairsFor_cons, pairsFor_cons]
        have hk : ¬ (((k0, v) : String × String).1 = k) := h
        have hk0 : ¬ (((k0, v0) : String × String).1 = k) := h
        rw [if_neg hk, if_neg hk0]
        simpa using pairsFor_filter_ne h rest
      · have e1 : qpSet ((k0, v0) :: rest) k' v = (k0, v0) :: qpSet rest k' v := by
          simp [qpSet, h0]
        rw [e1, pairsFor_cons, pairsFor_cons, ih]

theorem pairsFor_qpSetStrField_ne {k' k : String} (h : k' ≠ k) (q : QueryPairs) :
    ∀ o : Option String, pairsFor k (qpSetStrField q k' o) = pairsFor k q
  | some v => by
      by_cases hv : v = "" <;> simp [qpSetStrField, hv, pairsFor_qpSet_ne h]
  | none => rfl

theorem pairsFor_qpAppendArrayField_ne {k' k : String} (h : k' ≠ k) (q : QueryPairs) :
    ∀ o : Option (List String), pairsFor k (qpAppendArrayField q k' o) = pairsFor k q
  | some vs => by
      by_cases hv : vs.isEmpty <;> simp [qpAppendArrayField, hv, pairsFor_qpAppendAll_ne h]
  | none => rfl

theorem pairsFor_qpAppendArrayField_self (k : String) (q : QueryPairs) :
    ∀ o : Option (List String),
      pairsFor k (qpAppendArrayField q k o) = pairsFor k q ++ seqPairs k (o.getD [])
  | some vs => by
      by_cases hv : vs.isEmpty
      · have hnil : vs = [] := List.isEmpty_iff.mp hv
        simp [qpAppendArrayField, hv, hnil, seqPairs]
      · simp [qpAppendArrayField, hv, pairsFor_qpAppendAll_self]
  | none => by simp [qpAppendArrayField, seqPairs]

theorem pairsFor_qpSetPageSize_ne {k : String} (h : "pageSize" ≠ k) (q : QueryPairs) :
    ∀ o : Option Int, pairsFor k (qpSetPageSize q o) = pairsFor k q
  | some n => pairsFor_qpSet_ne h q (toString n)
  | none => rfl

/-! ## C4 -/

/-- C4: for every params record, each of the six sequence-valued fields
contributes exactly one repeated `key=value` pair per element to the
serialized pairs, in the original order (an absent or empty field
contributes none), and `buildQueryString` is the `&`-join of exactly these
pairs in this order. -/
theorem sequence_fields_repeated_pairs (p : SearchListingsItemsQueryParams) :
    pairsFor "marketplaceIds" (buildQueryStringPairs p) =
      seqPairs "marketplaceIds" p.marketplaceIds ∧
    pairsFor "includedData" (buildQueryStringPairs p) =
      seqPairs "includedData" (p.includedData.getD []) ∧
    pairsFor "identifiers" (buildQueryStringPairs p) =
      seqPairs "identifiers" (p.identifiers.getD []) ∧
    pairsFor "withIssueSeverity" (buildQueryStringPairs p) =
      seqPairs "withIssueSeverity" (p.withIssueSeverity.getD []) ∧
    pairsFor "withStatus" (buildQueryStringPairs p) =
      seqPairs "withStatus" (p.withStatus.getD []) ∧
    pairsFor "withoutStatus" (buildQueryStringPairs p) =
      seqPairs "withoutStatus" (p.withoutStatus.getD []) ∧
    buildQueryString p = qpToString (buildQueryStringPairs p) := by
  have hnil : ∀ k : String, pairsFor k ([] : QueryPairs) = [] := fun _ => rfl
  refine ⟨?_, ?_, ?_, ?_, ?_, ?_, rfl⟩ <;>
    simp [buildQueryStringPairs, pairsFor_qpSetStrField_ne, pairsFor_qpSetPageSize_ne,
      pairsFor_qpAppendArrayField_ne, pairsFor_qpAppendArrayField_self,
      pairsFor_qpAppendAll_self, pairsFor_qpAppendAll_ne, hnil]

/-! ## C8 -/

/-- C8: when the params fail validation, `searchListingsItems` fails with
the validation error message and issues no request: the transport is never
invoked, whatever it would answer. -/
theorem invalid_params_never_reach_transport
    (c : AmazonSpApiClient)
    (transport : String → List (String × String) → Int → TransportOutcome)
    (p : SearchListingsItemsQueryParams)
    (h : validateSearchParamsDetails p ≠ []) :
    searchListingsItemsRun c transport p =
      (.validationFailure
        ("Validation failed: " ++ String.intercalate ", " (validateSearchParamsDetails p)),
       []) := by
  cases hd : validateSearchParamsDetails p with
  | nil => exact absurd hd h
  | cons m rest =>
      simp only [searchListingsItemsRun, validateSearchParamsErrorMessage, hd]

theorem invalid_params_never_reach_transport_witness :
    searchListingsItemsRun baseClient nullTransport emptyRequiredParams =
      (.validationFailure "Validation failed: sellerId is required and cannot be empty",
       []) := by
  have h := invalid_params_never_reach_transport baseClient nullTransport emptyRequiredParams
    (by decide)
  rw [h]
  rfl

/-! ## C5 -/

/-- C5: an HTTP failure with status 429 whose body has no `errors` array
normalizes to statusCode 429 with exactly one synthesized error: code
`HTTP_429`, message equal to the status-text lookup for 429 (the
`|| error.message || "HTTP 429 error"` fallbacks never fire because the
lookup is non-empty), details the JSON-serialized body when a body is
present; and `isRateLimitError()` holds on the result. -/
theorem http429_without_errors_array
    (resp : AxiosResponse) (errMessage : String)
    (hs : resp.status = 429)
    (hne : errorsFieldIsArray resp.data = false) :
    (createSpApiErrorFromAxiosError (.httpResponse resp errMessage)).statusCode = 429 ∧
    (createSpApiErrorFromAxiosError (.httpResponse resp errMessage)).errors =
      .synthesized
        [{ code := "HTTP_429"
           message := "The frequency of requests was greater than allowed"
           details := if resp.data.truthy then some resp.data.stringify else none }] ∧
    getHttpErrorMessage 429 = "The frequency of requests was greater than allowed" ∧
    (createSpApiErrorFromAxiosError (.httpResponse resp errMessage)).isRateLimitError = true := by
  obtain ⟨st, data, hdrs⟩ := resp
  simp only at hs hne
  subst hs
  have hv : useVerbatimErrors data = false := by
    simp [useVerbatimErrors, hne]
  have e1 : getHttpErrorMessage 429 = "The frequency of requests was greater than allowed" := rfl
  have e2 : ∀ x : String,
      jsOrString "The frequency of requests was greater than allowed" x =
        "The frequency of requests was greater than allowed" := fun _ => rfl
  have e3 : ("HTTP_" ++ toString (429 : Int)) = "HTTP_429" := rfl
  refine ⟨rfl, ?_, rfl, rfl⟩
  simp only [createSpApiErrorFromAxiosError, hv, Bool.false_eq_true, if_false, e1, e2, e3]

theorem http429_without_errors_array_witness :
    (createSpApiErrorFromAxiosError rateLimitAxiosError).statusCode = 429 ∧
    (createSpApiErrorFromAxiosError rateLimitAxiosError).isRateLimitError = true ∧
    (createSpApiErrorFromAxiosError rateLimitAxiosError).errors =
      .synthesized
        [{ code := "HTTP_429"
           message := "The frequency of requests was greater than allowed"
           details := some "\x7b\"message\":\"Too many requests\"\x7d" }] := by
  have h := http429_without_errors_array
    { status := 429
      data := rateLimitBody
      headers := [("x-amzn-requestid", "req-1"), ("x-amzn-ratelimit-limit", "0.5")] }
    "Request failed with status code 429" rfl rfl
  exact ⟨h.1, h.2.2.2, h.2.1⟩

/-! ## Record-merge lemmas -/

theorem lookup_map_override (k : String) (a b : List (String × String)) :
    List.lookup k (a.map (fun kv => (kv.1, (List.lookup kv.1 b).getD kv.2))) =
      (List.lookup k a).map (fun v => (List.lookup k b).getD v) := by
  induction a with
  | nil => rfl
  | cons x rest ih =>
      by_cases hk : k = x.1
      · simp [List.lookup, hk]
      · have hbk : (k == x.1) = false := by simp [hk]
        simp [List.lookup, hbk, ih]

theorem lookup_filter_notin (k : String) (a b : List (String × String)) :
    List.lookup k (b.filter (fun kv => (List.lookup kv.1 a).isNone)) =
      if (List.lookup k a).isNone then List.lookup k b else none := by
  induction b with
  | nil => simp
  | cons x rest ih =>
      simp only [List.filter_cons]
      by_cases hk : k = x.1
      · subst hk
        by_cases ha : (List.lookup x.1 a).isNone
        · simp [ha, List.lookup]
        · simp [ha, List.lookup, ih]
      · have hbk : (k == x.1) = false := by simp [hk]
        by_cases ha : (List.lookup x.1 a).isNone
        · simp [ha, List.lookup, hbk, ih]
        · simp [ha, List.lookup, hbk, ih]

theorem lookup_append (k : String) (l1 l2 : List (String × String)) :
    List.lookup k (l1 ++ l2) =
      match List.lookup k l1 with
      | some v => some v
      | none => List.lookup k l2 := by
  induction l1 with
  | nil => simp [List.lookup]
  | cons x rest ih =>
      by_cases hk : k = x.1
      · simp [List.lookup, hk]
      · have hbk : (k == x.1) = false := by simp [hk]
        simp [List.lookup, hbk, ih]

theorem lookup_recordMerge (k : String) (a b : List (String × String)) :
    List.lookup k (recordMerge a b) =
      match List.lookup k a with
      | some v => some ((List.lookup k b).getD v)
      | none => List.lookup k b := by
  unfold recordMerge
  rw [lookup_append, lookup_map_override, lookup_filter_notin]
  cases ha : List.lookup k a <;> simp [ha]

theorem lookup_recordMerge_isSome_left {k : String} {a : List (String × String)}
    (h : (List.lookup k a).isSome = true) (b : List (String × String)) :
    (List.lookup k (recordMerge a b)).isSome = true := by
  rw [lookup_recordMerge]
  obtain ⟨v, hv⟩ := Option.isSome_iff_exists.mp h
  simp [hv]

theorem lookup_merge_defaults (k : String) (x : List (String × String))
    (hCT : (List.lookup "Content-Type" x).isSome = true)
    (hAcc : (List.lookup "Accept" x).isSome = true) :
    List.lookup k (recordMerge defaultJsonHeaders x) = List.lookup k x := by
  rw [lookup_recordMerge]
  cases hd : List.lookup k defaultJsonHeaders with
  | none => rfl
  | some v =>
      have hk : k = "Content-Type" ∨ k = "Accept" := by
        by_cases h1 : k = "Content-Type"
        · exact Or.inl h1
        · by_cases h2 : k = "Accept"
          · exact Or.inr h2
          · exfalso
            have hb1 : (k == "Content-Type") = false := by simp [h1]
            have hb2 : (k == "Accept") = false := by simp [h2]
            simp [defaultJsonHeaders, List.lookup, hb1, hb2] at hd
      rcases hk with rfl | rfl
      · obtain ⟨w, hw⟩ := Option.isSome_iff_exists.mp hCT
        simp [hw]
      · obtain ⟨w, hw⟩ := Option.isSome_iff_exists.mp hAcc
        simp [hw]

/-! ## URL lemmas -/

theorem hasNonSlash_dropLast {r : List Char} (h : hasNonSlash r = true)
    (hl : r.getLast? = some '/') : hasNonSlash r.dropLast = true := by
  obtain ⟨x, hx, hxs⟩ := List.any_eq_true.mp h
  have hsplit := List.dropLast_append_getLast? '/' hl
  rw [← hsplit] at hx
  rcases List.mem_append.mp hx with hx1 | hx2
  · exact List.any_eq_true.mpr ⟨x, hx1, hxs⟩
  · exfalso
    simp at hx2
    subst hx2
    simp at hxs

theorem take_drop_dropLast {l : List Char} {n : Nat} {pre : List Char}
    (hl : l.getLast? = some '/')
    (htake : l.take n = pre)
    (hns : hasNonSlash (l.drop n) = true) :
    l.dropLast.take n = pre ∧ hasNonSlash (l.dropLast.drop n) = true := by
  have hsplit := List.dropLast_append_getLast? '/' hl
  set d := l.dropLast with hdd
  have hld : l = d ++ ['/'] := hsplit.symm
  rw [hld] at htake hns
  have hn : n ≤ d.length := by
    by_contra hlt
    push_neg at hlt
    have hle : (d ++ ['/']).length ≤ n := by
      simp only [List.length_append, List.length_cons, List.length_nil]
      omega
    rw [List.drop_eq_nil_of_le hle] at hns
    exact absurd hns (by decide)
  constructor
  · rw [← htake, List.take_append_of_le_length hn]
  · rw [List.drop_append_of_le_length hn] at hns
    unfold hasNonSlash at hns ⊢
    rw [List.any_append] at hns
    simpa using hns

theorem uriCheckL_stripSlashL {l : List Char} (h : uriCheckL l = true) :
    uriCheckL (stripSlashL l) = true := by
  unfold stripSlashL
  by_cases hl : l.getLast? = some '/'
  · rw [if_pos hl]
    unfold uriCheckL schemeRest at h ⊢
    by_cases h7 : l.take 7 = "http://".data
    · rw [if_pos h7] at h
      obtain ⟨ht, hd⟩ := take_drop_dropLast hl h7 h
      rw [if_pos ht]
      exact hd
    · rw [if_neg h7] at h
      by_cases h8 : l.take 8 = "https://".data
      · rw [if_pos h8] at h
        obtain ⟨ht, hd⟩ := take_drop_dropLast hl h8 h
        have h78 : (l.dropLast.take 8).take 7 = l.dropLast.take 7 := by
          rw [List.take_take]
          norm_num
        have h77 : l.dropLast.take 7 = "https:/".data := by
          rw [← h78, ht]
          decide
        have h7' : ¬ l.dropLast.take 7 = "http://".data := by
          rw [h77]
          decide
        rw [if_neg h7', if_pos ht]
        exact hd
      · rw [if_neg h8] at h
        exact absurd h (by decide)
  · rw [if_neg hl]
    exact h

/-! ## C7 -/

/-- C7 counterexample: two reachable clients on which the claim fails,
because `withConfig` re-runs the constructor on the merged config. First,
an omitted `baseUrl` does not always inherit the current value: the
constructor strips one more trailing slash, so the client whose stored
`baseUrl` is `https://x.example.com/` (built from the valid URL
`https://x.example.com//`) gets `https://x.example.com` from
`withConfig({})`. Second, the effective headers are not always the current
`defaultHeaders` merged with the partial headers: on a client whose
`Content-Type` entry was removed with `removeHeaders`, the constructor
re-run re-adds `Content-Type: application/json`, an entry the merge of the
current headers with the (empty) partial headers does not contain. -/
theorem withConfig_inheritance_counterexample :
    (mkClient doubleSlashConfig = some slashClient ∧
     slashClient.baseUrl = "https://x.example.com/" ∧
     (withConfigS slashClient {}).1.map (fun x => x.baseUrl) = some "https://x.example.com" ∧
     ¬ ((withConfigS slashClient {}).1.map (fun x => x.baseUrl) =
        some slashClient.baseUrl)) ∧
    (mkClient apiConfig = some baseClient ∧
     removeHeaders baseClient ["Content-Type"] = noCTClient ∧
     List.lookup "Content-Type" noCTClient.defaultHeaders = none ∧
     (withConfigS noCTClient {}).1.map
        (fun x => List.lookup "Content-Type" x.defaultHeaders) =
       some (some "application/json") ∧
     List.lookup "Content-Type" (recordMerge noCTClient.defaultHeaders []) = none) :=
  ⟨⟨by decide, by decide, by decide, by decide⟩,
   ⟨by decide, by decide, by decide, by decide, by decide⟩⟩

/-- C7 (amended): for every client whose `defaultHeaders` still contain the
`Content-Type` and `Accept` keys (construction guarantees both; only
`removeHeaders` can drop them, the second counterexample part), whenever
`withConfig` returns a new client, the effective header mapping of the new
client is the current `defaultHeaders` merged with the partial headers
(partial entries winning); an omitted `baseUrl` inherits the current value
re-stripped of one trailing slash — hence exactly the current value
whenever it does not end in `/` (the first counterexample part) —, an
omitted `timeout` inherits the current value, and the original client is
left unchanged by the call. -/
theorem withConfig_merges_and_inherits
    (c : AmazonSpApiClient) (ov : PartialSpApiClientConfig) (c' : AmazonSpApiClient)
    (hCT : (List.lookup "Content-Type" c.defaultHeaders).isSome = true)
    (hAcc : (List.lookup "Accept" c.defaultHeaders).isSome = true)
    (hok : (withConfigS c ov).1 = some c') :
    (∀ k, List.lookup k c'.defaultHeaders =
      List.lookup k (recordMerge c.defaultHeaders (ov.headers.getD []))) ∧
    (ov.baseUrl = none → c'.baseUrl = stripTrailingSlash c.baseUrl) ∧
    (ov.baseUrl = none → stripTrailingSlash c.baseUrl = c.baseUrl → c'.baseUrl = c.baseUrl) ∧
    (ov.timeout = none → c'.timeout = c.timeout) ∧
    (withConfigS c ov).2 = c := by
  unfold withConfigS mkClient at hok
  by_cases hcv : configViolations
      { baseUrl := jsOrStr ov.baseUrl c.baseUrl
        timeout := some (jsOrInt ov.timeout c.timeout)
        headers := some (recordMerge c.defaultHeaders (ov.headers.getD [])) } = []
  case neg => rw [if_neg hcv] at hok; cases hok
  rw [if_pos hcv] at hok
  obtain rfl := Option.some.inj hok
  refine ⟨?_, ?_, ?_, ?_, rfl⟩
  · intro k
    exact lookup_merge_defaults k _
      (lookup_recordMerge_isSome_left hCT _) (lookup_recordMerge_isSome_left hAcc _)
  · intro hbu
    simp [hbu, jsOrStr]
  · intro hbu hns
    simp [hbu, jsOrStr, hns]
  · intro hto
    rw [hto] at hcv
    simp only [configViolations, List.append_eq_nil] at hcv
    have h2 : (if c.timeout < 1000 then ["timeout must be at least 1000ms (1 second)"] else []) =
        [] := hcv.2.1
    show jsOrInt (some (jsOrInt ov.timeout c.timeout)) 30000 = c.timeout
    rw [hto]
    by_cases hlt : c.timeout < 1000
    · rw [if_pos hlt] at h2
      simp at h2
    · have hz : ¬ c.timeout = 0 := by omega
      simp [jsOrInt, hz]

theorem withConfig_merges_and_inherits_witness :
    (withConfigS baseClient headerOverride).1 = some mergedClient ∧
    List.lookup "a" mergedClient.defaultHeaders = some "b" ∧
    List.lookup "h" mergedClient.defaultHeaders = some "v" ∧
    (withConfigS baseClient headerOverride).2 = baseClient := by
  have h := withConfig_merges_and_inherits baseClient headerOverride mergedClient
    (by decide) (by decide) (by decide)
  exact ⟨by decide, (h.1 "a").trans (by decide), (h.1 "h").trans (by decide), h.2.2.2.2⟩

/-! ## C9 -/

/-- C9 counterexample: `withConfig({baseUrl: ""})` does treat the falsy
override as omitted, but the inherited value is re-stripped by the
constructor: on the reachable client whose stored `baseUrl` is
`https://x.example.com/`, the resulting `baseUrl` is
`https://x.example.com`, not the current one. -/
theorem withConfig_empty_baseUrl_restrips :
    mkClient doubleSlashConfig = some slashClient ∧
    slashClient.baseUrl = "https://x.example.com/" ∧
    (withConfigS slashClient { baseUrl := some "" }).1.map (fun x => x.baseUrl) =
      some "https://x.example.com" ∧
    ¬ ((withConfigS slashClient { baseUrl := some "" }).1.map (fun x => x.baseUrl) =
      some slashClient.baseUrl) :=
  ⟨by decide, by decide, by decide, by decide⟩

/-- C9 (amended): on every constructed client, `withConfig` treats falsy
overrides as omitted rather than validating them: `withConfig({timeout: 0})`
succeeds with the current timeout, and `withConfig({baseUrl: ""})` succeeds
with the current baseUrl re-stripped of one trailing slash (hence exactly
the current baseUrl whenever it does not end in `/`); neither override
fails construction validation. -/
theorem withConfig_falsy_overrides (cfg : SpApiClientConfig) (c : AmazonSpApiClient)
    (hc : mkClient cfg = some c) :
    ((withConfigS c { timeout := some 0 }).1.map (fun x => x.timeout) = some c.timeout ∧
     (withConfigS c { timeout := some 0 }).1.map (fun x => x.baseUrl) =
       some (stripTrailingSlash c.baseUrl)) ∧
    ((withConfigS c { baseUrl := some "" }).1.map (fun x => x.baseUrl) =
       some (stripTrailingSlash c.baseUrl) ∧
     (withConfigS c { baseUrl := some "" }).1.map (fun x => x.timeout) = some c.timeout) := by
  unfold mkClient at hc
  by_cases hcv : configViolations cfg = []
  case neg => rw [if_neg hcv] at hc; cases hc
  rw [if_pos hcv] at hc
  obtain rfl := Option.some.inj hc
  simp only [configViolations, List.append_eq_nil] at hcv
  have huri : isHttpHttpsUri cfg.baseUrl = true := by
    by_cases hu : isHttpHttpsUri cfg.baseUrl
    · exact hu
    · rw [if_neg hu] at hcv
      simp at hcv
  have huri' : isHttpHttpsUri (stripTrailingSlash cfg.baseUrl) = true :=
    uriCheckL_stripSlashL huri
  have hrange : 1000 ≤ jsOrInt cfg.timeout 30000 ∧ jsOrInt cfg.timeout 30000 ≤ 300000 := by
    cases hti : cfg.timeout with
    | none => simp [jsOrInt]
    | some t =>
        have hm : (if t < 1000 then ["timeout must be at least 1000ms (1 second)"] else []) ++
            (if (300000 : Int) < t then ["timeout must be at most 300000ms (5 minutes)"]
             else []) = [] := by
          have hx := hcv.2
          rw [hti] at hx
          exact hx
        rw [List.append_eq_nil] at hm
        obtain ⟨hA, hB⟩ := hm
        by_cases h1 : t < 1000
        · rw [if_pos h1] at hA
          simp at hA
        · by_cases h2 : (300000 : Int) < t
          · rw [if_pos h2] at hB
            simp at hB
          · have hz : ¬ t = 0 := by omega
            simp [jsOrInt, hz]
            omega
  set T := jsOrInt cfg.timeout 30000 with hT
  have hz : ¬ T = 0 := by omega
  have hviol : ∀ hs : List (String × String), configViolations
      { baseUrl := stripTrailingSlash cfg.baseUrl
        timeout := some T
        headers := some hs } = [] := by
    intro hs
    simp only [configViolations, huri', if_true]
    have h1 : ¬ T < 1000 := by omega
    have h2 : ¬ (300000 : Int) < T := by omega
    simp [h1, h2]
  refine ⟨⟨?_, ?_⟩, ?_, ?_⟩ <;>
    simp only [withConfigS, mkClient, jsOrStr, jsOrInt, hviol, if_pos, if_true] <;>
    simp [hz]

theorem withConfig_falsy_overrides_witness :
    mkClient apiConfig = some baseClient ∧
    (withConfigS baseClient { timeout := some 0 }).1.map (fun x => x.timeout) = some 30000 ∧
    (withConfigS baseClient { baseUrl := some "" }).1.map (fun x => x.baseUrl) =
      some "https://api.example.com" := by
  have h := withConfig_falsy_overrides apiConfig baseClient (by decide)
  exact ⟨by decide, h.1.1.trans (by decide), (h.2.1).trans (by decide)⟩

end SellerSpApi
